import Mathlib

/-!
Verification of the libmicrohttpd platform-independent locks abstraction
(`src/microhttpd/mhd_locks.h`): mutex macros for the pthread and W32
backends, and the counting-semaphore interface.

The mutex operations are preprocessor macros over the native calls; we
embed them as Lean functions that take the native call results (return
code, `errno`) as explicit inputs and produce either a normal completion
(with the new logical mutex state) or a transfer of control to the fatal
error hook `MHD_PANIC`, represented by the `panic` constructor carrying
the diagnostic message.  The semaphore implementation file is not part of
the sources at hand (only its declarations are), so its behaviour is
modelled from the specification.
-/

/-- Logical state of a platform mutex: uninitialised storage, an
initialised mutex that is free, or a mutex held by exactly one thread
(identified by a natural number). -/
inductive MutexState where
  | uninit
  | unlocked
  | locked (owner : Nat)
  deriving DecidableEq, Repr

/-- Outcome of one mutex operation: normal completion carrying the
caller-visible return value and the resulting logical mutex state, or
invocation of the fatal error hook `MHD_PANIC` with a diagnostic message
(the hook never returns, so no state or value is produced). -/
inductive MutexOutcome (α : Type) where
  | ok (val : α) (st : MutexState)
  | panic (msg : String)
  deriving DecidableEq, Repr

/-- `errno` value `EAGAIN` (Linux numbering; only its identity matters). -/
def EAGAIN : Nat := 11

/-- `errno` value `EINPROGRESS` (Linux numbering). -/
def EINPROGRESS : Nat := 115

/-- Pthread backend of `MHD_mutex_init_`:
`#define MHD_mutex_init_(pmutex) (!(pthread_mutex_init((pmutex), NULL)))`.
`nret` is the native return code of `pthread_mutex_init` (0 on success);
the C `!` turns it into 1 on success, 0 on failure.  On native success the
storage becomes a valid unlocked mutex (native semantics, per the spec). -/
def MHD_mutex_init_ (st : MutexState) (nret : Nat) : MutexOutcome Nat :=
  if nret = 0 then .ok 1 .unlocked else .ok 0 st

/-- Pthread backend of `MHD_mutex_destroy_`: panics via `MHD_PANIC` when
`pthread_mutex_destroy` returns nonzero (`nret`) and `errno` is neither
`EAGAIN` nor `EINPROGRESS`; otherwise it completes with no caller-visible
value (the macro is a `do \x7b ... \x7d while (0)` statement). -/
def MHD_mutex_destroy_ (st : MutexState) (nret errno : Nat) : MutexOutcome Unit :=
  if nret ≠ 0 ∧ errno ≠ EAGAIN ∧ errno ≠ EINPROGRESS then
    .panic "Failed to destroy mutex\n"
  else if nret = 0 then .ok () .uninit
  else .ok () st

/-- Pthread backend of `MHD_mutex_lock_`: a successful return from
`pthread_mutex_lock` (`nret = 0`) means the calling thread `tid` has
acquired the mutex; any nonzero return invokes `MHD_PANIC`. -/
def MHD_mutex_lock_ (st : MutexState) (tid : Nat) (nret : Nat) : MutexOutcome Unit :=
  if nret ≠ 0 then .panic "Failed to lock mutex\n"
  else .ok () (.locked tid)

/-- Pthread backend of `MHD_mutex_unlock_`: a successful return from
`pthread_mutex_unlock` releases the mutex; any nonzero return invokes
`MHD_PANIC`. -/
def MHD_mutex_unlock_ (st : MutexState) (nret : Nat) : MutexOutcome Unit :=
  if nret ≠ 0 then .panic "Failed to unlock mutex\n"
  else .ok () .unlocked

/-- W32 backend of `MHD_mutex_init_`:
`InitializeCriticalSectionAndSpinCount((pmutex),16)` returns a BOOL
(`nret`, nonzero on success) which the macro passes straight through. -/
def MHD_mutex_init_W32 (st : MutexState) (nret : Nat) : MutexOutcome Nat :=
  if nret ≠ 0 then .ok nret .unlocked else .ok 0 st

/-- W32 backend of `MHD_mutex_destroy_`: a bare `DeleteCriticalSection`
call, void, with no failure check. -/
def MHD_mutex_destroy_W32 (st : MutexState) : MutexOutcome Unit :=
  .ok () .uninit

/-- W32 backend of `MHD_mutex_lock_`: a bare `EnterCriticalSection` call,
void, with no failure check; a return means thread `tid` holds the lock. -/
def MHD_mutex_lock_W32 (st : MutexState) (tid : Nat) : MutexOutcome Unit :=
  .ok () (.locked tid)

/-- W32 backend of `MHD_mutex_unlock_`: a bare `LeaveCriticalSection`
call, void, with no failure check. -/
def MHD_mutex_unlock_W32 (st : MutexState) : MutexOutcome Unit :=
  .ok () .unlocked

/-- Modelled from the spec: the repository implements `struct
MHD_Semaphore` outside the sources at hand (only `mhd_locks.h` declares
it); per the spec it owns a non-negative integer counter plus the
auxiliary state needed to block `down` callers, here the list of thread
ids currently blocked in `down`. -/
structure MHD_Semaphore where
  counter : Int
  blocked : List Nat
  deriving DecidableEq, Repr

/-- Caller-visible result of a single `down` call: it either proceeded
immediately (counter was positive) or the calling thread is now blocked. -/
inductive DownOutcome where
  | proceeded
  | blockedNow
  deriving DecidableEq, Repr

/-- Outcome of one semaphore operation: normal completion with the
caller-visible value and new semaphore state, or invocation of the fatal
error hook on an internal native failure. -/
inductive SemOutcome (α : Type) where
  | ok (val : α) (sem : MHD_Semaphore)
  | panic (msg : String)
  deriving DecidableEq, Repr

/-- Modelled from the spec: `MHD_semaphore_create (unsigned int init)`
allocates and returns an owning handle to a new semaphore whose counter
starts at `init`, or returns NULL (here `none`) on allocation failure
(`alloc_ok` is whether the native allocation succeeded).  No thread is
blocked on a fresh semaphore. -/
def MHD_semaphore_create (init : Nat) (alloc_ok : Bool) : Option MHD_Semaphore :=
  if alloc_ok then some ⟨(init : Int), []⟩ else none

/-- Modelled from the spec: `MHD_semaphore_down` atomically decrements a
positive counter and returns immediately, or records the calling thread
`tid` as blocked when the counter is not positive; an internal native
failure (`native_ok = false`) is fatal and never surfaces to the caller. -/
def MHD_semaphore_down (sem : MHD_Semaphore) (tid : Nat) (native_ok : Bool) :
    SemOutcome DownOutcome :=
  if ¬ native_ok then .panic "Failed to down semaphore"
  else if 0 < sem.counter then .ok .proceeded ⟨sem.counter - 1, sem.blocked⟩
  else .ok .blockedNow ⟨sem.counter, tid :: sem.blocked⟩

/-- Modelled from the spec: `MHD_semaphore_up` atomically increments the
counter (leaving the set of blocked threads to be woken by the scheduler);
an internal native failure is fatal and never surfaces to the caller. -/
def MHD_semaphore_up (sem : MHD_Semaphore) (native_ok : Bool) : SemOutcome Unit :=
  if ¬ native_ok then .panic "Failed to up semaphore"
  else .ok () ⟨sem.counter + 1, sem.blocked⟩

/-- Events of the semaphore's small-step interleaving semantics, tagged
with the acting thread id. -/
inductive SemEvent where
  | downFast (t : Nat)
  | downBlock (t : Nat)
  | wake (t : Nat)
  | up (t : Nat)
  deriving DecidableEq, Repr

/-- Modelled from the spec: one atomic step of the semaphore.  A `down`
with a positive counter decrements it and returns (`downFast`); a `down`
with a non-positive counter blocks the caller (`downBlock`); a thread
blocked in `down` completes once the counter is positive (`wake`); `up`
increments the counter. -/
inductive SemStep : MHD_Semaphore → SemEvent → MHD_Semaphore → Prop where
  | downFast (s : MHD_Semaphore) (t : Nat) (h : 0 < s.counter) :
      SemStep s (.downFast t) ⟨s.counter - 1, s.blocked⟩
  | downBlock (s : MHD_Semaphore) (t : Nat) (h : s.counter ≤ 0) :
      SemStep s (.downBlock t) ⟨s.counter, t :: s.blocked⟩
  | wake (s : MHD_Semaphore) (t : Nat) (h : 0 < s.counter) (ht : t ∈ s.blocked) :
      SemStep s (.wake t) ⟨s.counter - 1, s.blocked.erase t⟩
  | up (s : MHD_Semaphore) (t : Nat) :
      SemStep s (.up t) ⟨s.counter + 1, s.blocked⟩

/-- A finite interleaving of semaphore steps from one state to another,
recording the list of events in order. -/
inductive SemTrace : MHD_Semaphore → List SemEvent → MHD_Semaphore → Prop where
  | nil (s : MHD_Semaphore) : SemTrace s [] s
  | cons {s s₁ s₂ : MHD_Semaphore} {e : SemEvent} {evs : List SemEvent}
      (h₁ : SemStep s e s₁) (h₂ : SemTrace s₁ evs s₂) : SemTrace s (e :: evs) s₂

/-- One state of the mutual-exclusion test system of the spec: `n` threads
each run the critical-section program `lock; counter++; counter--; unlock`
over one shared mutex (embedded `MHD_mutex_lock_` / `MHD_mutex_unlock_`
with the native calls succeeding).  `pc i` is thread `i`'s program
counter: 0 before `lock`, 1 after `lock` returned, 2 after the increment,
3 after the decrement, 4 after `unlock`. -/
structure CSState (n : Nat) where
  mtx : MutexState
  ctr : Nat
  pc : Fin n → Nat

/-- Initial state of the mutual-exclusion test system: mutex unlocked
(just initialised), shared counter 0, every thread before its `lock`. -/
def csInit (n : Nat) : CSState n :=
  ⟨.unlocked, 0, fun _ => 0⟩

/-- Interleaving semantics of the mutual-exclusion test system: at each
step one thread executes its next instruction.  `lock` completes only
when the mutex is free (a thread whose `lock` has not completed is simply
blocked); `unlock` is issued unconditionally, as in the C program. -/
inductive CSStep {n : Nat} : CSState n → CSState n → Prop where
  | lock (s : CSState n) (i : Fin n) (hpc : s.pc i = 0) (hm : s.mtx = .unlocked) :
      CSStep s ⟨.locked i.val, s.ctr, Function.update s.pc i 1⟩
  | incr (s : CSState n) (i : Fin n) (hpc : s.pc i = 1) :
      CSStep s ⟨s.mtx, s.ctr + 1, Function.update s.pc i 2⟩
  | decr (s : CSState n) (i : Fin n) (hpc : s.pc i = 2) :
      CSStep s ⟨s.mtx, s.ctr - 1, Function.update s.pc i 3⟩
  | unlock (s : CSState n) (i : Fin n) (hpc : s.pc i = 3) :
      CSStep s ⟨.unlocked, s.ctr, Function.update s.pc i 4⟩

/-- States of the mutual-exclusion test system reachable from the initial
state by any interleaving. -/
inductive CSReach {n : Nat} : CSState n → Prop where
  | init : CSReach (csInit n)
  | step {s s' : CSState n} (h : CSReach s) (hs : CSStep s s') : CSReach s'

/-- Thread `i` is inside the critical section: between a successful return
from `lock` (pc 1) and the completion of the matching `unlock` (pc 4). -/
def InCrit {n : Nat} (s : CSState n) (i : Fin n) : Prop :=
  1 ≤ s.pc i ∧ s.pc i ≤ 3

/-- Inductive invariant of the mutual-exclusion test system: every thread
inside the critical section owns the mutex, and the shared counter is 1
exactly when some thread sits between the increment and the decrement. -/
def CSInv {n : Nat} (s : CSState n) : Prop :=
  (∀ i : Fin n, InCrit s i → s.mtx = .locked i.val) ∧
  ((∃ i : Fin n, s.pc i = 2) → s.ctr = 1) ∧
  ((∀ i : Fin n, s.pc i ≠ 2) → s.ctr = 0)

theorem csInv_init (n : Nat) : CSInv (csInit n) := by
  refine ⟨?_, ?_, ?_⟩
  · intro i hi
    rcases hi with ⟨h1, _⟩
    simp [csInit] at h1
  · rintro ⟨i, hi⟩
    simp [csInit] at hi
  · intro _
    rfl

theorem csInv_step {n : Nat} {s s' : CSState n} (hinv : CSInv s) (hs : CSStep s s') :
    CSInv s' := by
  obtain ⟨hcrit, hone, hzero⟩ := hinv
  cases hs with
  | lock i hpc hm =>
    have hnone : ∀ j : Fin n, ¬ InCrit s j := by
      intro j hj
      have hj' := hcrit j hj
      rw [hm] at hj'
      exact MutexState.noConfusion hj'
    refine ⟨?_, ?_, ?_⟩
    · intro j hj
      by_cases hji : j = i
      · subst hji; rfl
      · exfalso
        apply hnone j
        rcases hj with ⟨h1, h3⟩
        simp only [Function.update_noteq hji] at h1 h3
        exact ⟨h1, h3⟩
    · rintro ⟨j, hj⟩
      exfalso
      by_cases hji : j = i
      · subst hji; simp [Function.update_same] at hj
      · simp only [Function.update_noteq hji] at hj
        exact hnone j ⟨by omega, by omega⟩
    · intro _
      show s.ctr = 0
      apply hzero
      intro j hj
      exact hnone j ⟨by omega, by omega⟩
  | incr i hpc =>
    have hown : s.mtx = .locked i.val := hcrit i ⟨by omega, by omega⟩
    have hsolo : ∀ j : Fin n, InCrit s j → j = i := by
      intro j hj
      have hj' := hcrit j hj
      rw [hown] at hj'
      exact Fin.val_injective (MutexState.locked.inj hj').symm
    refine ⟨?_, ?_, ?_⟩
    · intro j hj
      by_cases hji : j = i
      · subst hji; exact hown
      · rcases hj with ⟨h1, h3⟩
        simp only [Function.update_noteq hji] at h1 h3
        exact hcrit j ⟨h1, h3⟩
    · intro _
      show s.ctr + 1 = 1
      have hc0 : s.ctr = 0 := by
        apply hzero
        intro j hj
        have hji : j = i := hsolo j ⟨by omega, by omega⟩
        subst hji; omega
      omega
    · intro hall
      exfalso
      exact hall i (by simp [Function.update_same])
  | decr i hpc =>
    have hown : s.mtx = .locked i.val := hcrit i ⟨by omega, by omega⟩
    have hsolo : ∀ j : Fin n, InCrit s j → j = i := by
      intro j hj
      have hj' := hcrit j hj
      rw [hown] at hj'
      exact Fin.val_injective (MutexState.locked.inj hj').symm
    have hc1 : s.ctr = 1 := hone ⟨i, hpc⟩
    refine ⟨?_, ?_, ?_⟩
    · intro j hj
      by_cases hji : j = i
      · subst hji; exact hown
      · rcases hj with ⟨h1, h3⟩
        simp only [Function.update_noteq hji] at h1 h3
        exact hcrit j ⟨h1, h3⟩
    · rintro ⟨j, hj⟩
      exfalso
      by_cases hji : j = i
      · subst hji; simp [Function.update_same] at hj
      · simp only [Function.update_noteq hji] at hj
        exact hji (hsolo j ⟨by omega, by omega⟩)
    · intro _
      show s.ctr - 1 = 0
      omega
  | unlock i hpc =>
    have hown : s.mtx = .locked i.val := hcrit i ⟨by omega, by omega⟩
    have hsolo : ∀ j : Fin n, InCrit s j → j = i := by
      intro j hj
      have hj' := hcrit j hj
      rw [hown] at hj'
      exact Fin.val_injective (MutexState.locked.inj hj').symm
    refine ⟨?_, ?_, ?_⟩
    · intro j hj
      exfalso
      by_cases hji : j = i
      · subst hji
        rcases hj with ⟨_, h3⟩
        simp [Function.update_same] at h3
      · rcases hj with ⟨h1, h3⟩
        simp only [Function.update_noteq hji] at h1 h3
        exact hji (hsolo j ⟨h1, h3⟩)
    · rintro ⟨j, hj⟩
      exfalso
      by_cases hji : j = i
      · subst hji; simp [Function.update_same] at hj
      · simp only [Function.update_noteq hji] at hj
        exact hji (hsolo j ⟨by omega, by omega⟩)
    · intro _
      show s.ctr = 0
      apply hzero
      intro j hj
      by_cases hji : j = i
      · subst hji; omega
      · exact hji (hsolo j ⟨by omega, by omega⟩)

theorem csInv_reach {n : Nat} {s : CSState n} (h : CSReach s) : CSInv s := by
  induction h with
  | init => exact csInv_init n
  | step _ hs ih => exact csInv_step ih hs

theorem semTrace_append {s s₂ : MHD_Semaphore} {l₁ l₂ : List SemEvent}
    (h : SemTrace s (l₁ ++ l₂) s₂) :
    ∃ mid : MHD_Semaphore, SemTrace s l₁ mid ∧ SemTrace mid l₂ s₂ := by
  induction l₁ generalizing s with
  | nil => exact ⟨s, SemTrace.nil s, h⟩
  | cons e es ih =>
    cases h with
    | cons h₁ h₂ =>
      obtain ⟨mid, hm1, hm2⟩ := ih h₂
      exact ⟨mid, SemTrace.cons h₁ hm1, hm2⟩

theorem semStep_counter_nonneg {s : MHD_Semaphore} {e : SemEvent} {s' : MHD_Semaphore}
    (h : SemStep s e s') (h0 : 0 ≤ s.counter) : 0 ≤ s'.counter := by
  cases h with
  | downFast t hc => show (0 : Int) ≤ s.counter - 1; omega
  | downBlock t hc => exact h0
  | wake t hc ht => show (0 : Int) ≤ s.counter - 1; omega
  | up t => show (0 : Int) ≤ s.counter + 1; omega

theorem semTrace_counter_nonneg {s s₂ : MHD_Semaphore} {evs : List SemEvent}
    (h : SemTrace s evs s₂) : 0 ≤ s.counter → 0 ≤ s₂.counter := by
  induction h with
  | nil => exact id
  | cons h₁ h₂ ih => exact fun h0 => ih (semStep_counter_nonneg h₁ h0)

/-- From a state with a non-positive counter, the counter can only become
positive again after an `up` event: every trace ending in a positive
counter contains one. -/
theorem counter_pos_needs_up {s s₂ : MHD_Semaphore} {evs : List SemEvent}
    (h : SemTrace s evs s₂) :
    s.counter ≤ 0 → 0 < s₂.counter → ∃ u : Nat, SemEvent.up u ∈ evs := by
  induction h with
  | nil => intro h0 hpos; omega
  | cons h₁ h₂ ih =>
    intro h0 hpos
    cases h₁ with
    | downFast t hc => omega
    | downBlock t hc =>
      obtain ⟨u, hu⟩ := ih h0 hpos
      exact ⟨u, List.mem_cons_of_mem _ hu⟩
    | wake t hc ht => omega
    | up t => exact ⟨t, List.mem_cons_self _ _⟩

/-- Repeatedly call `MHD_semaphore_down` (with the native calls
succeeding), one call per thread id in the list, collecting the
caller-visible outcomes and threading the semaphore state. -/
def runDowns (sem : MHD_Semaphore) : List Nat → List DownOutcome × MHD_Semaphore
  | [] => ([], sem)
  | t :: ts =>
    match MHD_semaphore_down sem t true with
    | .ok out sem' =>
      let r := runDowns sem' ts
      (out :: r.1, r.2)
    | .panic _ => ([], sem)

theorem runDowns_all_proceed (ts : List Nat) (sem : MHD_Semaphore)
    (h : (ts.length : Int) ≤ sem.counter) :
    (runDowns sem ts).1 = List.replicate ts.length DownOutcome.proceeded ∧
    (runDowns sem ts).2.counter = sem.counter - ts.length ∧
    (runDowns sem ts).2.blocked = sem.blocked := by
  induction ts generalizing sem with
  | nil => simp [runDowns]
  | cons t ts ih =>
    have hlen : ((t :: ts).length : Int) = (ts.length : Int) + 1 := by
      simp only [List.length_cons]
      push_cast
      ring
    have hpos : 0 < sem.counter := by
      rw [hlen] at h
      omega
    have hdown : MHD_semaphore_down sem t true =
        SemOutcome.ok DownOutcome.proceeded ⟨sem.counter - 1, sem.blocked⟩ := by
      simp [MHD_semaphore_down, hpos]
    obtain ⟨h1, h2, h3⟩ := ih ⟨sem.counter - 1, sem.blocked⟩
      (by show (ts.length : Int) ≤ sem.counter - 1; rw [hlen] at h; omega)
    refine ⟨?_, ?_, ?_⟩
    · simp only [runDowns, hdown, List.length_cons, List.replicate_succ]
      rw [h1]
    · simp only [runDowns, hdown]
      rw [h2]
      show sem.counter - 1 - (ts.length : Int) = sem.counter - ((t :: ts).length : Int)
      rw [hlen]
      ring
    · simp only [runDowns, hdown]
      rw [h3]

/-- C1: for the pthread mutex destroy operation, whenever the native
destroy call fails (`nret ≠ 0`) the fatal-error hook is invoked — except
when `errno` is `EAGAIN` or `EINPROGRESS` ("mutex currently held with no
waiters" transient states), in which case destroy completes without
invoking the hook and without reporting any error to the caller (the
operation is a statement with no return value); a successful native call
also completes normally. -/
theorem mutex_destroy_fatal_except_transient (st : MutexState) (nret errno : Nat) :
    (nret ≠ 0 → errno ≠ EAGAIN → errno ≠ EINPROGRESS →
      MHD_mutex_destroy_ st nret errno = MutexOutcome.panic "Failed to destroy mutex\n") ∧
    (nret ≠ 0 → (errno = EAGAIN ∨ errno = EINPROGRESS) →
      MHD_mutex_destroy_ st nret errno = MutexOutcome.ok () st) ∧
    (nret = 0 → MHD_mutex_destroy_ st nret errno = MutexOutcome.ok () MutexState.uninit) := by
  refine ⟨?_, ?_, ?_⟩
  · intro h1 h2 h3
    simp [MHD_mutex_destroy_, h1, h2, h3]
  · intro h1 h2
    rcases h2 with h2 | h2 <;> simp [MHD_mutex_destroy_, h1, h2]
  · intro h1
    simp [MHD_mutex_destroy_, h1]

/-- Evaluation witness for C1 at a concrete failing input. -/
theorem mutex_destroy_fatal_except_transient_witness :
    MHD_mutex_destroy_ MutexState.unlocked 1 0 =
      MutexOutcome.panic "Failed to destroy mutex\n" :=
  (mutex_destroy_fatal_except_transient MutexState.unlocked 1 0).1
    (by decide) (by decide) (by decide)

/-- C2: for the pthread mutex lock and unlock operations, a native
failure (`nret ≠ 0`) invokes the fatal-error hook (so the calling thread
never proceeds past the call: the outcome is `panic`, not `ok`), while a
successful native call completes normally; the caller-visible value is
`Unit` in every normal completion, so no error value is ever returned. -/
theorem mutex_lock_unlock_fatal_on_failure (st : MutexState) (tid nret : Nat) :
    (nret ≠ 0 →
      MHD_mutex_lock_ st tid nret = MutexOutcome.panic "Failed to lock mutex\n") ∧
    (nret = 0 →
      MHD_mutex_lock_ st tid nret = MutexOutcome.ok () (MutexState.locked tid)) ∧
    (nret ≠ 0 →
      MHD_mutex_unlock_ st nret = MutexOutcome.panic "Failed to unlock mutex\n") ∧
    (nret = 0 →
      MHD_mutex_unlock_ st nret = MutexOutcome.ok () MutexState.unlocked) := by
  refine ⟨?_, ?_, ?_, ?_⟩ <;> intro h <;> simp [MHD_mutex_lock_, MHD_mutex_unlock_, h]

/-- Evaluation witness for C2 at a concrete successful input. -/
theorem mutex_lock_unlock_fatal_on_failure_witness :
    MHD_mutex_lock_ MutexState.unlocked 0 0 =
      MutexOutcome.ok () (MutexState.locked 0) :=
  (mutex_lock_unlock_fatal_on_failure MutexState.unlocked 0 0).2.1 rfl

/-- C3: the mutex initialize operation returns a caller-visible result —
nonzero (1 for pthread, the native BOOL for W32) on success, 0 on failure
— and on success the storage is a valid mutex in the unlocked state; on
neither backend does any input make initialize invoke the fatal-error
hook, so an initialization failure is always recoverable. -/
theorem mutex_init_recoverable (st : MutexState) (nret : Nat) :
    (∀ msg, MHD_mutex_init_ st nret ≠ MutexOutcome.panic msg) ∧
    (nret = 0 → MHD_mutex_init_ st nret = MutexOutcome.ok 1 MutexState.unlocked) ∧
    (nret ≠ 0 → MHD_mutex_init_ st nret = MutexOutcome.ok 0 st) ∧
    (∀ msg, MHD_mutex_init_W32 st nret ≠ MutexOutcome.panic msg) ∧
    (nret ≠ 0 → MHD_mutex_init_W32 st nret = MutexOutcome.ok nret MutexState.unlocked) ∧
    (nret = 0 → MHD_mutex_init_W32 st nret = MutexOutcome.ok 0 st) := by
  refine ⟨?_, ?_, ?_, ?_, ?_, ?_⟩
  · intro msg
    by_cases h : nret = 0 <;> simp [MHD_mutex_init_, h]
  · intro h; simp [MHD_mutex_init_, h]
  · intro h; simp [MHD_mutex_init_, h]
  · intro msg
    by_cases h : nret = 0 <;> simp [MHD_mutex_init_W32, h]
  · intro h; simp [MHD_mutex_init_W32, h]
  · intro h; simp [MHD_mutex_init_W32, h]

/-- Evaluation witness for C3 at a concrete successful input. -/
theorem mutex_init_recoverable_witness :
    MHD_mutex_init_ MutexState.uninit 0 = MutexOutcome.ok 1 MutexState.unlocked :=
  (mutex_init_recoverable MutexState.uninit 0).2.1 rfl

/-- C4: semaphore create returns an owning handle to a new semaphore
whose counter equals the requested initial count (with no thread blocked
on it) whenever allocation succeeds, and a null result (`none`) when
allocation fails; its result type carries no fatal-hook outcome, so
creation failure is fully recoverable. -/
theorem semaphore_create_recoverable (initc : Nat) (alloc_ok : Bool) :
    (∀ sem, MHD_semaphore_create initc alloc_ok = some sem →
      sem.counter = (initc : Int) ∧ sem.blocked = []) ∧
    (alloc_ok = false → MHD_semaphore_create initc alloc_ok = none) ∧
    (alloc_ok = true → MHD_semaphore_create initc alloc_ok = some ⟨(initc : Int), []⟩) := by
  refine ⟨?_, ?_, ?_⟩
  · intro sem hsem
    cases alloc_ok with
    | false => simp [MHD_semaphore_create] at hsem
    | true =>
      simp [MHD_semaphore_create] at hsem
      subst hsem
      exact ⟨rfl, rfl⟩
  · intro h; simp [MHD_semaphore_create, h]
  · intro h; simp [MHD_semaphore_create, h]

/-- Evaluation witness for C4 at a concrete input. -/
theorem semaphore_create_recoverable_witness :
    (MHD_Semaphore.mk 3 []).counter = ((3 : Nat) : Int) ∧
      (MHD_Semaphore.mk 3 []).blocked = [] :=
  (semaphore_create_recoverable 3 true).1 ⟨3, []⟩ rfl

/-- C5: a `down` call with a positive counter atomically decrements it
and returns immediately; with a non-positive counter the caller becomes
blocked, and its pending `down` can only complete (`wake`) after some
thread's `up` occurs; the caller-visible value on normal completion is a
`DownOutcome` (never an error), and an internal native failure is routed
to the fatal-error hook instead of the caller. -/
theorem semaphore_down_contract :
    (∀ (sem : MHD_Semaphore) (tid : Nat), 0 < sem.counter →
      MHD_semaphore_down sem tid true =
        SemOutcome.ok DownOutcome.proceeded ⟨sem.counter - 1, sem.blocked⟩) ∧
    (∀ (sem : MHD_Semaphore) (tid : Nat), sem.counter ≤ 0 →
      MHD_semaphore_down sem tid true =
        SemOutcome.ok DownOutcome.blockedNow ⟨sem.counter, tid :: sem.blocked⟩) ∧
    (∀ (sem : MHD_Semaphore) (tid : Nat),
      MHD_semaphore_down sem tid false = SemOutcome.panic "Failed to down semaphore") ∧
    (∀ (s s₂ : MHD_Semaphore) (evs₁ evs₂ : List SemEvent) (t : Nat),
      s.counter ≤ 0 →
      SemTrace s (evs₁ ++ SemEvent.wake t :: evs₂) s₂ →
      ∃ u : Nat, SemEvent.up u ∈ evs₁) := by
  refine ⟨?_, ?_, ?_, ?_⟩
  · intro sem tid h
    simp [MHD_semaphore_down, h]
  · intro sem tid h
    simp [MHD_semaphore_down, not_lt.mpr h]
  · intro sem tid
    simp [MHD_semaphore_down]
  · intro s s₂ evs₁ evs₂ t h0 htr
    obtain ⟨mid, hm1, hm2⟩ := semTrace_append htr
    have hpos : 0 < mid.counter := by
      cases hm2 with
      | cons h₁ h₂ =>
        cases h₁
        assumption
    exact counter_pos_needs_up hm1 h0 hpos

/-- Evaluation witness for C5 at a concrete input with a positive
counter. -/
theorem semaphore_down_contract_witness :
    MHD_semaphore_down ⟨1, []⟩ 7 true =
      SemOutcome.ok DownOutcome.proceeded ⟨(1 : Int) - 1, []⟩ :=
  semaphore_down_contract.1 ⟨1, []⟩ 7 (by decide)

/-- C6: `up` atomically increments the counter, leaving the blocked set
unchanged; after an `up`, any thread blocked in `down` has its `wake`
step enabled (so at least one blocked thread can be woken); and an
internal native failure is routed to the fatal-error hook, never to the
caller (whose normal result is `Unit`). -/
theorem semaphore_up_contract :
    (∀ sem : MHD_Semaphore,
      MHD_semaphore_up sem true = SemOutcome.ok () ⟨sem.counter + 1, sem.blocked⟩) ∧
    (∀ sem : MHD_Semaphore,
      MHD_semaphore_up sem false = SemOutcome.panic "Failed to up semaphore") ∧
    (∀ (sem : MHD_Semaphore) (t : Nat), 0 ≤ sem.counter → t ∈ sem.blocked →
      SemStep ⟨sem.counter + 1, sem.blocked⟩ (SemEvent.wake t)
        ⟨sem.counter + 1 - 1, sem.blocked.erase t⟩) ∧
    (∀ (s s' : MHD_Semaphore) (t : Nat), SemStep s (SemEvent.up t) s' →
      s'.counter = s.counter + 1 ∧ s'.blocked = s.blocked) := by
  refine ⟨?_, ?_, ?_, ?_⟩
  · intro sem
    simp [MHD_semaphore_up]
  · intro sem
    simp [MHD_semaphore_up]
  · intro sem t h0 ht
    exact SemStep.wake ⟨sem.counter + 1, sem.blocked⟩ t
      (show (0 : Int) < sem.counter + 1 by omega) ht
  · intro s s' t h
    cases h with
    | up => exact ⟨rfl, rfl⟩

/-- Evaluation witness for C6: a wake step is enabled after an `up` on a
semaphore with one blocked thread. -/
theorem semaphore_up_contract_witness :
    SemStep ⟨(0 : Int) + 1, [4]⟩ (SemEvent.wake 4) ⟨(0 : Int) + 1 - 1, List.erase [4] 4⟩ :=
  semaphore_up_contract.2.2.1 ⟨0, [4]⟩ 4 (by decide) (by decide)

/-- C7: starting from any semaphore returned by create, the logical
counter is non-negative after every sequence of down/up/wake steps, and a
`down` blocks its caller only when the counter is not positive at the
instant of the call (a `downBlock` step is enabled only at a non-positive
counter). -/
theorem semaphore_counter_invariant :
    (∀ (initc : Nat) (alloc_ok : Bool) (s₀ s : MHD_Semaphore) (evs : List SemEvent),
      MHD_semaphore_create initc alloc_ok = some s₀ →
      SemTrace s₀ evs s → 0 ≤ s.counter) ∧
    (∀ (s s' : MHD_Semaphore) (t : Nat),
      SemStep s (SemEvent.downBlock t) s' → ¬ 0 < s.counter) := by
  constructor
  · intro initc alloc_ok s₀ s evs hc htr
    have h0 : 0 ≤ s₀.counter := by
      cases alloc_ok with
      | false => simp [MHD_semaphore_create] at hc
      | true =>
        simp [MHD_semaphore_create] at hc
        subst hc
        exact Int.ofNat_nonneg initc
    exact semTrace_counter_nonneg htr h0
  · intro s s' t h
    cases h with
    | downBlock hle => omega

/-- Evaluation witness for C7 on a concrete created semaphore and a
concrete trace. -/
theorem semaphore_counter_invariant_witness :
    (0 : Int) ≤ (MHD_Semaphore.mk 2 []).counter :=
  semaphore_counter_invariant.1 2 true ⟨2, []⟩ ⟨2, []⟩ [] rfl (SemTrace.nil ⟨2, []⟩)

/-- C8: a semaphore created with initial count `N` lets exactly `N`
`down` calls proceed without blocking before any `up`: the first `N`
downs all return `proceeded`, leave the counter at 0, and the next down
blocks its caller. -/
theorem semaphore_initial_count_exact (N : Nat) (tids : List Nat) (extra : Nat)
    (s₀ : MHD_Semaphore)
    (hc : MHD_semaphore_create N true = some s₀) (hlen : tids.length = N) :
    (runDowns s₀ tids).1 = List.replicate N DownOutcome.proceeded ∧
    (runDowns s₀ tids).2.counter = 0 ∧
    MHD_semaphore_down (runDowns s₀ tids).2 extra true =
      SemOutcome.ok DownOutcome.blockedNow ⟨0, extra :: (runDowns s₀ tids).2.blocked⟩ := by
  have hs₀ : s₀ = ⟨(N : Int), []⟩ := by
    simp [MHD_semaphore_create] at hc
    exact hc.symm
  subst hs₀
  obtain ⟨h1, h2, h3⟩ := runDowns_all_proceed tids ⟨(N : Int), []⟩
    (by show (tids.length : Int) ≤ (N : Int); rw [hlen])
  have hctr : (runDowns (⟨(N : Int), []⟩ : MHD_Semaphore) tids).2.counter = 0 := by
    rw [h2]
    show (N : Int) - (tids.length : Int) = 0
    rw [hlen]
    ring
  refine ⟨by rw [h1, hlen], hctr, ?_⟩
  have hdown := semaphore_down_contract.2.1
    (runDowns (⟨(N : Int), []⟩ : MHD_Semaphore) tids).2 extra (by rw [hctr])
  rw [hctr] at hdown
  exact hdown

/-- Evaluation witness for C8 at `N = 2`. -/
theorem semaphore_initial_count_exact_witness :
    (runDowns ⟨((2 : Nat) : Int), []⟩ [5, 6]).1 =
        List.replicate 2 DownOutcome.proceeded ∧
      (runDowns ⟨((2 : Nat) : Int), []⟩ [5, 6]).2.counter = 0 ∧
      MHD_semaphore_down (runDowns ⟨((2 : Nat) : Int), []⟩ [5, 6]).2 9 true =
        SemOutcome.ok DownOutcome.blockedNow
          ⟨0, 9 :: (runDowns ⟨((2 : Nat) : Int), []⟩ [5, 6]).2.blocked⟩ :=
  semaphore_initial_count_exact 2 [5, 6] 9 ⟨((2 : Nat) : Int), []⟩ rfl rfl

/-- C9: mutual exclusion for the embedded mutex — in every state of the
critical-section test system reachable under any interleaving, the
shared counter incremented and decremented inside the critical section
never exceeds 1, and no two distinct threads are simultaneously between
a successful return from `lock` and the completion of the matching
`unlock`. -/
theorem mutex_mutual_exclusion {n : Nat} (s : CSState n) (h : CSReach s) :
    s.ctr ≤ 1 ∧ ∀ i j : Fin n, InCrit s i → InCrit s j → i = j := by
  obtain ⟨hcrit, hone, hzero⟩ := csInv_reach h
  constructor
  · by_cases hex : ∃ i : Fin n, s.pc i = 2
    · have := hone hex
      omega
    · have := hzero (by push_neg at hex; exact hex)
      omega
  · intro i j hi hj
    have h1 := hcrit i hi
    have h2 := hcrit j hj
    rw [h1] at h2
    exact Fin.val_injective (MutexState.locked.inj h2)

/-- Evaluation witness for C9 at the initial state of a two-thread
system. -/
theorem mutex_mutual_exclusion_witness :
    (csInit 2).ctr ≤ 1 ∧
      ∀ i j : Fin 2, InCrit (csInit 2) i → InCrit (csInit 2) j → i = j :=
  mutex_mutual_exclusion (csInit 2) CSReach.init

/-- C10: on the W32 backend, mutex destroy, lock and unlock are bare
void CRITICAL_SECTION calls that complete normally for every input (so
the fatal-error hook is never invoked), while on the pthread backend
each of the three operations has inputs that do invoke the hook — the
hook is reachable from these operations only on the pthread backend. -/
theorem w32_mutex_ops_never_fatal :
    (∀ st : MutexState, MHD_mutex_destroy_W32 st = MutexOutcome.ok () MutexState.uninit) ∧
    (∀ (st : MutexState) (tid : Nat),
      MHD_mutex_lock_W32 st tid = MutexOutcome.ok () (MutexState.locked tid)) ∧
    (∀ st : MutexState, MHD_mutex_unlock_W32 st = MutexOutcome.ok () MutexState.unlocked) ∧
    (∃ (st : MutexState) (nret errno : Nat) (msg : String),
      MHD_mutex_destroy_ st nret errno = MutexOutcome.panic msg) ∧
    (∃ (st : MutexState) (tid nret : Nat) (msg : String),
      MHD_mutex_lock_ st tid nret = MutexOutcome.panic msg) ∧
    (∃ (st : MutexState) (nret : Nat) (msg : String),
      MHD_mutex_unlock_ st nret = MutexOutcome.panic msg) := by
  refine ⟨fun st => rfl, fun st tid => rfl, fun st => rfl, ?_, ?_, ?_⟩
  · exact ⟨MutexState.unlocked, 1, 0, "Failed to destroy mutex\n", by decide⟩
  · exact ⟨MutexState.unlocked, 0, 1, "Failed to lock mutex\n", by decide⟩
  · exact ⟨MutexState.unlocked, 1, "Failed to unlock mutex\n", by decide⟩
